import Mathlib

/-!
Verification of the wave run-up / Iribarren-number analysis pipeline of the
CoastProc notebooks (`notebooks/WaveClim/CycloneYasi.ipynb` and
`notebooks/WaveClim/WaveAnalysis.ipynb`).

The numerical code operates on numpy/pandas floats, which never raise on
domain errors but instead produce NaN or ±infinity.  We model a float value
as `FP`: NaN, +inf, -inf, or a finite real number (rounding error is not
modelled; finite arithmetic is exact real arithmetic).
-/

/-- A numpy floating-point value: NaN, positive infinity, negative infinity,
or a finite value (modelled as a real number). -/
inductive FP where
  | nan : FP
  | pinf : FP
  | ninf : FP
  | fin : ℝ → FP

namespace FP

/-- IEEE-754 division as numpy performs it (no exception is ever raised):
division by zero yields ±infinity or NaN, a finite value divided by an
infinity yields 0, infinity/infinity and 0/0 yield NaN.  Signed zero is not
modelled (the pipeline only ever divides by non-negative quantities, whose
zero is +0). -/
noncomputable def fdiv : FP → FP → FP
  | _, nan => nan
  | nan, _ => nan
  | fin a, fin b =>
      if b = 0 then (if a = 0 then nan else if 0 < a then pinf else ninf)
      else fin (a / b)
  | fin _, pinf => fin 0
  | fin _, ninf => fin 0
  | pinf, fin b => if b < 0 then ninf else pinf
  | ninf, fin b => if b < 0 then pinf else ninf
  | pinf, pinf => nan
  | pinf, ninf => nan
  | ninf, pinf => nan
  | ninf, ninf => nan

/-- numpy `x ** 0.5`, i.e. IEEE pow(x, 0.5): NaN for a negative finite
argument (with only a runtime warning, no exception), `x ^ 0.5` (= sqrt)
for a non-negative one, +inf for BOTH infinities — per IEEE,
pow(-inf, 0.5) = +inf, unlike sqrt(-inf) = NaN — and NaN for NaN. -/
noncomputable def fpowHalf : FP → FP
  | nan => nan
  | pinf => pinf
  | ninf => pinf
  | fin x => if x < 0 then nan else fin (x ^ ((0.5 : ℝ)))

/-- numpy strict comparison `u < v`: any comparison with NaN is false. -/
def flt : FP → FP → Prop
  | nan, _ => False
  | _, nan => False
  | fin a, fin b => a < b
  | fin _, pinf => True
  | fin _, ninf => False
  | pinf, _ => False
  | ninf, ninf => False
  | ninf, _ => True

/-- numpy comparison `u <= v`: any comparison with NaN is false. -/
def fle : FP → FP → Prop
  | nan, _ => False
  | _, nan => False
  | fin a, fin b => a ≤ b
  | fin _, pinf => True
  | fin _, ninf => False
  | pinf, pinf => True
  | pinf, _ => False
  | ninf, _ => True

end FP

/-- Embeds the line `Lp = 9.81 * (Tp ** 2) / (2 * np.pi)` of `iribarrenNb`
in CycloneYasi.ipynb; this is what the spec calls
`computeDeepwaterWavelength`. -/
noncomputable def computeDeepwaterWavelength (Tp : ℝ) : ℝ :=
  9.81 * Tp ^ 2 / (2 * Real.pi)

/-- Embeds the function `iribarrenNb(Tp, Hs, beta)` of CycloneYasi.ipynb:
`Lp = 9.81 * (Tp ** 2) / (2 * np.pi); zeta = beta / (Hs / Lp) ** 0.5`,
with numpy float semantics for the division and the half power.  This is
what the spec calls `computeIribarren`. -/
noncomputable def iribarrenNb (Tp Hs beta : ℝ) : FP :=
  FP.fdiv (FP.fin beta)
    (FP.fpowHalf (FP.fdiv (FP.fin Hs) (FP.fin (computeDeepwaterWavelength Tp))))

/-- Membership condition of `ids1 = np.where(df.iribarren < 0.5)[0]` in
CycloneYasi.ipynb: the row's iribarren value satisfies `< 0.5`. -/
def ids1Mem (v : FP) : Prop := FP.flt v (FP.fin 0.5)

/-- Membership condition of
`ids2 = np.where(np.logical_and(df.iribarren >= 0.5, df.iribarren < 1.5))[0]`. -/
def ids2Mem (v : FP) : Prop := FP.fle (FP.fin 0.5) v ∧ FP.flt v (FP.fin 1.5)

/-- Membership condition of `ids3 = np.where(df.iribarren >= 1.5)[0]`. -/
def ids3Mem (v : FP) : Prop := FP.fle (FP.fin 1.5) v

/-- The three beach types distinguished by the notebook's plot
(`dissipative`, `intermediate`, `reflective`). -/
inductive BeachType where
  | dissipative : BeachType
  | intermediate : BeachType
  | reflective : BeachType
deriving DecidableEq

/-- Classification of a (finite, non-NaN) Iribarren value by the exact
breakpoints of the `ids1`/`ids2`/`ids3` conditions of CycloneYasi.ipynb;
this is what the spec calls `classifyBeachType`. -/
noncomputable def classifyBeachType (ε : ℝ) : BeachType :=
  if ε < 0.5 then BeachType.dissipative
  else if 0.5 ≤ ε ∧ ε < 1.5 then BeachType.intermediate
  else BeachType.reflective

/-- One row of the Power et al. (2018) run-up dataset, with the ten columns
named by the `names` list of CycloneYasi.ipynb. -/
structure RunupRecord where
  dataset : String
  beach : String
  caseId : String
  lab_field : String
  hs : ℝ
  tp : ℝ
  beta : ℝ
  d50 : ℝ
  roughness : ℝ
  r2 : ℝ

/-- A row after the notebook's augmentation cell: the original row together
with the derived `iribarren` float. -/
structure AugmentedRecord where
  base : RunupRecord
  iribarren : FP

/-- Embeds the cell
`iribarren = iribarrenNb(Tp=df.tp, Hs=df.hs, beta=df.beta);`
`df["iribarren"] = iribarren` of CycloneYasi.ipynb: the vectorized call
broadcasts `iribarrenNb` over every row and stores the result as a new
column.  This is what the spec calls `batchAnalyze`. -/
noncomputable def appendIribarrenColumn (df : List RunupRecord) : List AugmentedRecord :=
  df.map (fun r => { base := r, iribarren := iribarrenNb r.tp r.hs r.beta })

/-- Embeds the plotting expression `df.r2[ids] / df.hs[ids]` of
CycloneYasi.ipynb (numpy float division, no validation); this is what the
spec calls `normalizedRunup`. -/
noncomputable def normalizedRunup (r : RunupRecord) : FP :=
  FP.fdiv (FP.fin r.r2) (FP.fin r.hs)

/-- The `names` list of CycloneYasi.ipynb: the manually defined column
names passed to `pd.read_csv` for the Power et al. (2018) dataset. -/
def names : List String :=
  ["dataset", "beach", "case", "lab_field", "hs", "tp", "beta", "d50", "roughness", "r2"]

/-- The columns of the data frame after the cell `df["iribarren"] = iribarren`:
assigning a new key in pandas appends exactly one column at the end. -/
def columnsAfterIribarren : List String := names ++ ["iribarren"]

/-- Embeds the argument pair of the correlation calls of WaveAnalysis.ipynb,
e.g. `scipy.stats.pearsonr(soi_df['anomaly'], wh_df['anomaly'][:len(soi_df)])`:
a dated series is a list of (month, value) pairs; the wave series is sliced
positionally to the length of the climate-index series and `pearsonr` then
consumes the two value sequences positionally, dates discarded. -/
def pearsonInput (idx wave : List (Nat × ℝ)) : List ℝ × List ℝ :=
  (idx.map Prod.snd, (wave.take idx.length).map Prod.snd)

/-- Modelled from the spec: the date-aligned pairing that the spec's open
question says the source does NOT perform — for each date of the
climate-index series, look up the wave-anomaly value recorded at the same
date (0 when absent).  Used only to contrast with `pearsonInput`. -/
def dateAlignedInput (idx wave : List (Nat × ℝ)) : List ℝ × List ℝ :=
  (idx.map Prod.snd, idx.map (fun p => ((wave.lookup p.1).getD 0)))

/-- The end-to-end example row of the spec:
`{dataset:"A", beach:"B1", case:1, lab_field:"field", hs:2.0, tp:8.0,`
`beta:0.05, d50:0.0003, roughness:1.0, r2:1.2}`. -/
noncomputable def powerRow : RunupRecord :=
  { dataset := "A", beach := "B1", caseId := "1", lab_field := "field",
    hs := 2.0, tp := 8.0, beta := 0.05, d50 := 0.0003, roughness := 1.0, r2 := 1.2 }

/-! ## Helper lemmas -/

lemma computeDeepwaterWavelength_pos (Tp : ℝ) (h : Tp ≠ 0) :
    0 < computeDeepwaterWavelength Tp := by
  unfold computeDeepwaterWavelength
  have h2 : 0 < Tp ^ 2 := by
    rcases lt_or_gt_of_ne h with hlt | hgt
    · nlinarith
    · nlinarith
  have hπ : 0 < Real.pi := Real.pi_pos
  apply div_pos <;> nlinarith

lemma fdiv_fin_fin (a b : ℝ) (hb : b ≠ 0) :
    FP.fdiv (FP.fin a) (FP.fin b) = FP.fin (a / b) := by
  simp [FP.fdiv, hb]

lemma fpowHalf_fin_nonneg (x : ℝ) (hx : 0 ≤ x) :
    FP.fpowHalf (FP.fin x) = FP.fin (Real.sqrt x) := by
  have hr : (x : ℝ) ^ ((0.5 : ℝ)) = Real.sqrt x := by
    rw [Real.sqrt_eq_rpow]
    norm_num
  simp [FP.fpowHalf, not_lt.mpr hx, hr]

lemma iribarrenNb_fin (Tp Hs beta : ℝ) (hT : Tp ≠ 0) (hH : 0 < Hs) :
    iribarrenNb Tp Hs beta =
      FP.fin (beta / Real.sqrt (Hs / computeDeepwaterWavelength Tp)) := by
  have hL : 0 < computeDeepwaterWavelength Tp := computeDeepwaterWavelength_pos Tp hT
  have hq : 0 < Hs / computeDeepwaterWavelength Tp := div_pos hH hL
  have hs : 0 < Real.sqrt (Hs / computeDeepwaterWavelength Tp) := Real.sqrt_pos.mpr hq
  unfold iribarrenNb
  rw [fdiv_fin_fin _ _ hL.ne', fpowHalf_fin_nonneg _ hq.le, fdiv_fin_fin _ _ hs.ne']

lemma appendIribarrenColumn_map_base (df : List RunupRecord) :
    (appendIribarrenColumn df).map AugmentedRecord.base = df := by
  unfold appendIribarrenColumn
  rw [List.map_map]
  have hid : (AugmentedRecord.base ∘ fun r =>
      ({ base := r, iribarren := iribarrenNb r.tp r.hs r.beta } : AugmentedRecord)) = id := by
    funext r
    rfl
  rw [hid, List.map_id]

/-! ## Claims -/

/-- Claim C2: for every period > 0, `computeDeepwaterWavelength period`
equals `9.81 * period^2 / (2*π)` within 1e-9 relative tolerance (in the
real-number model the two are exactly equal). -/
theorem C2_deepwater_wavelength_formula (period : ℝ) (h : 0 < period) :
    |computeDeepwaterWavelength period - 9.81 * period ^ 2 / (2 * Real.pi)| ≤
      1e-9 * (9.81 * period ^ 2 / (2 * Real.pi)) := by
  have hL : 0 < computeDeepwaterWavelength period := computeDeepwaterWavelength_pos period h.ne'
  have hz : computeDeepwaterWavelength period - 9.81 * period ^ 2 / (2 * Real.pi) = 0 := by
    unfold computeDeepwaterWavelength
    ring
  rw [hz, abs_zero]
  unfold computeDeepwaterWavelength at hL
  nlinarith [hL]

/-- Witness for C2 at period = 8. -/
theorem C2_deepwater_wavelength_formula_witness :
    |computeDeepwaterWavelength 8 - 9.81 * 8 ^ 2 / (2 * Real.pi)| ≤
      1e-9 * (9.81 * 8 ^ 2 / (2 * Real.pi)) :=
  C2_deepwater_wavelength_formula 8 (by norm_num)

/-- Claim C3: `classifyBeachType` maps every Iribarren number by the exact
breakpoints: below 0.5 dissipative, in [0.5, 1.5) intermediate, at least
1.5 reflective; in particular 0.5 is intermediate and 1.5 reflective. -/
theorem C3_classifyBeachType_breakpoints :
    (∀ ε : ℝ,
      (ε < 0.5 → classifyBeachType ε = BeachType.dissipative) ∧
      (0.5 ≤ ε → ε < 1.5 → classifyBeachType ε = BeachType.intermediate) ∧
      (1.5 ≤ ε → classifyBeachType ε = BeachType.reflective)) ∧
    classifyBeachType 0.5 = BeachType.intermediate ∧
    classifyBeachType 1.5 = BeachType.reflective := by
  have key : ∀ ε : ℝ,
      (ε < 0.5 → classifyBeachType ε = BeachType.dissipative) ∧
      (0.5 ≤ ε → ε < 1.5 → classifyBeachType ε = BeachType.intermediate) ∧
      (1.5 ≤ ε → classifyBeachType ε = BeachType.reflective) := by
    intro ε
    refine ⟨fun h1 => ?_, fun h2 h3 => ?_, fun h4 => ?_⟩
    · simp [classifyBeachType, h1]
    · have h5 : ¬ ε < 0.5 := not_lt.mpr h2
      simp [classifyBeachType, h5, h2, h3]
    · have h5 : ¬ ε < 0.5 := by norm_num; linarith
      have h6 : ¬ ((0.5 : ℝ) ≤ ε ∧ ε < 1.5) := by
        rintro ⟨-, hc⟩
        norm_num at hc h4
        linarith
      simp [classifyBeachType, h5, h6]
  refine ⟨key, ?_, ?_⟩
  · exact (key 0.5).2.1 (by norm_num) (by norm_num)
  · exact (key 1.5).2.2 (by norm_num)

/-- Witness for C3 at the four boundary probes of the spec. -/
theorem C3_classifyBeachType_breakpoints_witness :
    classifyBeachType 0.4999 = BeachType.dissipative ∧
    classifyBeachType 0.5 = BeachType.intermediate ∧
    classifyBeachType 1.4999 = BeachType.intermediate ∧
    classifyBeachType 1.5 = BeachType.reflective :=
  ⟨(C3_classifyBeachType_breakpoints.1 0.4999).1 (by norm_num),
   (C3_classifyBeachType_breakpoints.1 0.5).2.1 (by norm_num) (by norm_num),
   (C3_classifyBeachType_breakpoints.1 1.4999).2.1 (by norm_num) (by norm_num),
   (C3_classifyBeachType_breakpoints.1 1.5).2.2 (by norm_num)⟩

lemma classifyBeachType_of_lt (ε : ℝ) (h : ε < 0.5) :
    classifyBeachType ε = BeachType.dissipative := by
  simp [classifyBeachType, h]

lemma normalizedRunup_powerRow : normalizedRunup powerRow = FP.fin 0.6 := by
  have h : normalizedRunup powerRow = FP.fdiv (FP.fin 1.2) (FP.fin 2.0) := rfl
  have h2 : (1.2 : ℝ) / 2.0 = 0.6 := by norm_num
  rw [h, fdiv_fin_fin _ _ (by norm_num : (2.0 : ℝ) ≠ 0), h2]

lemma example_iribarren_bound :
    |0.05 / Real.sqrt ((2 : ℝ) / computeDeepwaterWavelength 8) - 0.3536| < 0.001 ∧
    0.05 / Real.sqrt ((2 : ℝ) / computeDeepwaterWavelength 8) < 0.5 := by
  have hπl : (3.141592 : ℝ) < Real.pi := Real.pi_gt_d6
  have hπu : Real.pi < 3.15 := Real.pi_lt_d2
  have hπ0 : 0 < Real.pi := Real.pi_pos
  have hx : (2 : ℝ) / computeDeepwaterWavelength 8 = Real.pi / 156.96 := by
    unfold computeDeepwaterWavelength
    field_simp
    ring
  have hxpos : 0 < (2 : ℝ) / computeDeepwaterWavelength 8 := by
    rw [hx]
    positivity
  set s := Real.sqrt ((2 : ℝ) / computeDeepwaterWavelength 8) with hs_def
  have hs_pos : 0 < s := Real.sqrt_pos.mpr hxpos
  have hs_sq : s ^ 2 = Real.pi / 156.96 := by
    rw [hs_def, Real.sq_sqrt hxpos.le, hx]
  have hs_lb : (0.1411 : ℝ) < s := by
    rw [hs_def, Real.lt_sqrt (by norm_num : (0:ℝ) ≤ 0.1411), hx,
      lt_div_iff (by norm_num : (0:ℝ) < 156.96)]
    have he : (0.1411 : ℝ) ^ 2 * 156.96 = 3.1249496016 := by norm_num
    rw [he]
    linarith [hπl]
  have hs_ub : s < (0.1417 : ℝ) := by
    rw [hs_def, Real.sqrt_lt' (by norm_num : (0:ℝ) < 0.1417), hx,
      div_lt_iff (by norm_num : (0:ℝ) < 156.96)]
    have he : (0.1417 : ℝ) ^ 2 * 156.96 = 3.1515825744 := by norm_num
    rw [he]
    linarith [hπu]
  have hεs : (0.05 / s) * s = 0.05 := div_mul_cancel₀ _ hs_pos.ne'
  refine ⟨abs_lt.mpr ⟨?_, ?_⟩, ?_⟩
  · nlinarith [hεs, hs_lb, hs_ub, hs_pos]
  · nlinarith [hεs, hs_lb, hs_ub, hs_pos]
  · nlinarith [hεs, hs_lb, hs_pos]

/-- Claim C1: for period > 0, waveHeight > 0, slope ≥ 0, `iribarrenNb`
returns slope / sqrt(waveHeight / λ₀) with λ₀ the deep-water wavelength;
for the example row (hs 2.0, tp 8.0, beta 0.05) the value is within 0.001
of 0.3536, classifies as dissipative, and the normalized run-up is 0.6. -/
theorem C1_iribarren_formula_and_example (period waveHeight slope : ℝ)
    (hT : 0 < period) (hH : 0 < waveHeight) (hβ : 0 ≤ slope) :
    iribarrenNb period waveHeight slope =
      FP.fin (slope / Real.sqrt (waveHeight / computeDeepwaterWavelength period)) ∧
    (∃ ε : ℝ, iribarrenNb 8 2 0.05 = FP.fin ε ∧ |ε - 0.3536| < 0.001 ∧
      classifyBeachType ε = BeachType.dissipative) ∧
    normalizedRunup powerRow = FP.fin 0.6 := by
  refine ⟨iribarrenNb_fin _ _ _ hT.ne' hH, ?_, normalizedRunup_powerRow⟩
  exact ⟨0.05 / Real.sqrt ((2 : ℝ) / computeDeepwaterWavelength 8),
    iribarrenNb_fin 8 2 0.05 (by norm_num) (by norm_num),
    example_iribarren_bound.1,
    classifyBeachType_of_lt _ example_iribarren_bound.2⟩

/-- Witness for C1 at the example row's inputs (tp 8, hs 2, beta 0.05). -/
theorem C1_iribarren_formula_and_example_witness :
    iribarrenNb 8 2 0.05 =
      FP.fin (0.05 / Real.sqrt ((2 : ℝ) / computeDeepwaterWavelength 8)) :=
  (C1_iribarren_formula_and_example 8 2 0.05 (by norm_num) (by norm_num) (by norm_num)).1

/-- Claim C8: on the valid domain, doubling the slope doubles the Iribarren
number and quadrupling the wave height halves it (period fixed). -/
theorem C8_iribarren_scaling (period height slope : ℝ)
    (hT : 0 < period) (hH : 0 < height) (hβ : 0 ≤ slope) :
    ∃ ε : ℝ, iribarrenNb period height slope = FP.fin ε ∧
      iribarrenNb period height (2 * slope) = FP.fin (2 * ε) ∧
      iribarrenNb period (4 * height) slope = FP.fin (ε / 2) := by
  have hL : 0 < computeDeepwaterWavelength period :=
    computeDeepwaterWavelength_pos _ hT.ne'
  set s := Real.sqrt (height / computeDeepwaterWavelength period) with hs_def
  have hq : 0 < height / computeDeepwaterWavelength period := div_pos hH hL
  have hs_pos : 0 < s := Real.sqrt_pos.mpr hq
  have hsqrt4 : Real.sqrt 4 = 2 := by
    rw [show (4 : ℝ) = 2 ^ 2 by norm_num, Real.sqrt_sq (by norm_num : (0:ℝ) ≤ 2)]
  refine ⟨slope / s, iribarrenNb_fin _ _ _ hT.ne' hH, ?_, ?_⟩
  · rw [iribarrenNb_fin _ _ _ hT.ne' hH]
    congr 1
    ring
  · rw [iribarrenNb_fin _ _ _ hT.ne' (by positivity : 0 < 4 * height)]
    congr 1
    have h4 : (4 : ℝ) * height / computeDeepwaterWavelength period =
        4 * (height / computeDeepwaterWavelength period) := by ring
    rw [h4, Real.sqrt_mul (by norm_num : (0:ℝ) ≤ 4), hsqrt4, ← hs_def]
    ring

/-- Witness for C8 at (period, height, slope) = (8, 2, 0.05). -/
theorem C8_iribarren_scaling_witness :
    ∃ ε : ℝ, iribarrenNb 8 2 0.05 = FP.fin ε ∧
      iribarrenNb 8 2 (2 * 0.05) = FP.fin (2 * ε) ∧
      iribarrenNb 8 (4 * 2) 0.05 = FP.fin (ε / 2) :=
  C8_iribarren_scaling 8 2 0.05 (by norm_num) (by norm_num) (by norm_num)

/-! ## Behaviour outside the valid domain -/

lemma fdiv_fin_zero_pos (a : ℝ) (ha : 0 < a) :
    FP.fdiv (FP.fin a) (FP.fin 0) = FP.pinf := by
  simp [FP.fdiv, ha.ne', ha]

lemma fdiv_fin_zero_neg (a : ℝ) (ha : a < 0) :
    FP.fdiv (FP.fin a) (FP.fin 0) = FP.ninf := by
  simp [FP.fdiv, ha.ne, not_lt.mpr ha.le]

lemma fdiv_zero_zero : FP.fdiv (FP.fin 0) (FP.fin 0) = FP.nan := by
  simp [FP.fdiv]

lemma fdiv_fin_nan (a : ℝ) : FP.fdiv (FP.fin a) FP.nan = FP.nan := rfl

lemma fpowHalf_fin_neg (x : ℝ) (hx : x < 0) : FP.fpowHalf (FP.fin x) = FP.nan := by
  simp [FP.fpowHalf, hx]

lemma computeDeepwaterWavelength_zero : computeDeepwaterWavelength 0 = 0 := by
  simp [computeDeepwaterWavelength]

lemma iribarrenNb_neg_Hs (Tp Hs beta : ℝ) (hT : Tp ≠ 0) (hH : Hs < 0) :
    iribarrenNb Tp Hs beta = FP.nan := by
  unfold iribarrenNb
  have hL : 0 < computeDeepwaterWavelength Tp := computeDeepwaterWavelength_pos _ hT
  rw [fdiv_fin_fin _ _ hL.ne',
    fpowHalf_fin_neg _ (div_neg_of_neg_of_pos hH hL), fdiv_fin_nan]

lemma iribarrenNb_zero_Tp (Hs beta : ℝ) (hH : 0 < Hs) :
    iribarrenNb 0 Hs beta = FP.fin 0 := by
  unfold iribarrenNb
  rw [computeDeepwaterWavelength_zero, fdiv_fin_zero_pos _ hH]
  rfl

lemma iribarrenNb_zero_Tp_neg_Hs (Hs beta : ℝ) (hH : Hs < 0) :
    iribarrenNb 0 Hs beta = FP.fin 0 := by
  unfold iribarrenNb
  rw [computeDeepwaterWavelength_zero, fdiv_fin_zero_neg _ hH]
  rfl

/-! ## Remaining claims -/

/-- Claim C4 (amended): the vectorized broadcast of `iribarrenNb` over the
batch keeps every row: the output cardinality equals the input cardinality
(no row is excluded and no error list exists) and the relative order of
the rows is preserved. -/
theorem C4_batch_keeps_every_row (df : List RunupRecord) :
    (appendIribarrenColumn df).length = df.length ∧
    (appendIribarrenColumn df).map AugmentedRecord.base = df := by
  refine ⟨?_, appendIribarrenColumn_map_base df⟩
  unfold appendIribarrenColumn
  exact List.length_map _ _

/-- A row violating the spec's domain constraints: hs = -1 ≤ 0. -/
noncomputable def badRow : RunupRecord := { powerRow with hs := -1 }

/-- Counterexample to claim C4 as stated: with one domain-violating row
(hs = -1) among two input rows, the output still has two rows (not input
count minus malformed), and the violating row is not excluded. -/
theorem C4_counterexample :
    badRow.hs ≤ 0 ∧
    (appendIribarrenColumn [powerRow, badRow]).length ≠
      ([powerRow, badRow] : List RunupRecord).length - 1 ∧
    (appendIribarrenColumn [powerRow, badRow]).map AugmentedRecord.base =
      [powerRow, badRow] := by
  refine ⟨?_, ?_, appendIribarrenColumn_map_base _⟩
  · have h : badRow.hs = -1 := rfl
    rw [h]
    norm_num
  · simp [appendIribarrenColumn]

/-- Claim C5 (amended): the data frame starts with the TEN columns of the
`names` list (not nine), and the augmentation cell appends exactly ONE
column, `iribarren` — `beach_type` and `normalized_runup` are computed for
plotting but never stored as columns; no existing column or row is
mutated. -/
theorem C5_one_column_appended (df : List RunupRecord) :
    names.length = 10 ∧
    columnsAfterIribarren =
      ["dataset", "beach", "case", "lab_field", "hs", "tp", "beta", "d50",
       "roughness", "r2", "iribarren"] ∧
    (appendIribarrenColumn df).map AugmentedRecord.base = df :=
  ⟨rfl, rfl, appendIribarrenColumn_map_base df⟩

/-- Counterexample to claim C5 as stated: the input table has ten named
columns, not nine, and the output column list is not the original columns
plus the three claimed columns. -/
theorem C5_counterexample :
    names.length ≠ 9 ∧
    columnsAfterIribarren ≠
      names ++ ["iribarren", "beach_type", "normalized_runup"] := by
  constructor
  · simp [names]
  · intro h
    have hl := congrArg List.length h
    simp [columnsAfterIribarren, names] at hl

/-- Claim C6 (amended): `iribarrenNb` never fails — there is no
InvalidArgument error channel.  It returns the finite Iribarren value for
every nonzero period (negative included) and positive wave height; the
finite value 0 for a zero period, whether the wave height is positive
(beta / (+inf ** 0.5) = 0) or negative (beta / ((-inf) ** 0.5) =
beta / +inf = 0, since IEEE pow(-inf, 0.5) = +inf); and NaN (still a
value, not a failure) for a negative wave height with a nonzero period. -/
theorem C6_iribarren_never_fails (period waveHeight slope : ℝ) :
    (period ≠ 0 → 0 < waveHeight →
      iribarrenNb period waveHeight slope =
        FP.fin (slope / Real.sqrt (waveHeight / computeDeepwaterWavelength period))) ∧
    (period = 0 → 0 < waveHeight →
      iribarrenNb period waveHeight slope = FP.fin 0) ∧
    (period ≠ 0 → waveHeight < 0 →
      iribarrenNb period waveHeight slope = FP.nan) ∧
    (period = 0 → waveHeight < 0 →
      iribarrenNb period waveHeight slope = FP.fin 0) := by
  refine ⟨fun hT hH => iribarrenNb_fin _ _ _ hT hH, fun hT hH => ?_,
    fun hT hH => iribarrenNb_neg_Hs _ _ _ hT hH, fun hT hH => ?_⟩
  · rw [hT]
    exact iribarrenNb_zero_Tp _ _ hH
  · rw [hT]
    exact iribarrenNb_zero_Tp_neg_Hs _ _ hH

/-- Witness for C6 at (8, 2, 0.05). -/
theorem C6_iribarren_never_fails_witness :
    iribarrenNb 8 2 0.05 =
      FP.fin ((0.05 : ℝ) / Real.sqrt ((2 : ℝ) / computeDeepwaterWavelength 8)) :=
  (C6_iribarren_never_fails 8 2 0.05).1 (by norm_num) (by norm_num)

/-- Counterexample to claim C6 as stated: at period = -8 ≤ 0 the code
returns an ordinary finite value, and at waveHeight = -1 ≤ 0 it returns
the value NaN; no InvalidArgument failure occurs at either input. -/
theorem C6_counterexample :
    iribarrenNb (-8) 2 0.05 =
      FP.fin ((0.05 : ℝ) / Real.sqrt ((2 : ℝ) / computeDeepwaterWavelength (-8))) ∧
    iribarrenNb 8 (-1) 0.05 = FP.nan :=
  ⟨iribarrenNb_fin _ _ _ (by norm_num) (by norm_num),
   iribarrenNb_neg_Hs _ _ _ (by norm_num) (by norm_num)⟩

/-- Claim C7 (amended): `normalizedRunup` returns r2 / hs whenever
hs ≠ 0; when hs = 0 it does not fail but returns +inf, NaN or -inf
according to the sign of r2. -/
theorem C7_normalizedRunup_total (r : RunupRecord) :
    (r.hs ≠ 0 → normalizedRunup r = FP.fin (r.r2 / r.hs)) ∧
    (r.hs = 0 → 0 < r.r2 → normalizedRunup r = FP.pinf) ∧
    (r.hs = 0 → r.r2 = 0 → normalizedRunup r = FP.nan) ∧
    (r.hs = 0 → r.r2 < 0 → normalizedRunup r = FP.ninf) := by
  refine ⟨fun h => fdiv_fin_fin _ _ h, fun h0 hr => ?_, fun h0 hr => ?_, fun h0 hr => ?_⟩
  · unfold normalizedRunup
    rw [h0]
    exact fdiv_fin_zero_pos _ hr
  · unfold normalizedRunup
    rw [h0, hr]
    exact fdiv_zero_zero
  · unfold normalizedRunup
    rw [h0]
    exact fdiv_fin_zero_neg _ hr

/-- Witness for C7 at the example row (hs = 2, r2 = 1.2). -/
theorem C7_normalizedRunup_total_witness :
    normalizedRunup powerRow = FP.fin (powerRow.r2 / powerRow.hs) :=
  (C7_normalizedRunup_total powerRow).1 (by norm_num [powerRow])

/-- Counterexample to claim C7 as stated: at hs = 0 (with r2 = 1.2) the
code returns the value +inf — no InvalidArgument failure occurs. -/
theorem C7_counterexample :
    normalizedRunup { powerRow with hs := 0 } = FP.pinf := by
  unfold normalizedRunup
  exact fdiv_fin_zero_pos 1.2 (by norm_num)

/-- Claim C9: the correlation step of WaveAnalysis.ipynb pairs the two
series by position after slicing the wave-anomaly series to the length of
the climate-index series (so the paired length is the min of the two
lengths), discarding dates; on a concrete input with mismatched dates the
positional pairing differs from the date-aligned pairing. -/
theorem C9_positional_truncation :
    (∀ idx wave : List (Nat × ℝ),
      (pearsonInput idx wave).1 = idx.map Prod.snd ∧
      (pearsonInput idx wave).2 = (wave.map Prod.snd).take idx.length ∧
      (pearsonInput idx wave).2.length = min idx.length wave.length) ∧
    pearsonInput [(1, 10)] [(2, 3), (1, 4)] ≠
      dateAlignedInput [(1, 10)] [(2, 3), (1, 4)] := by
  constructor
  · intro idx wave
    refine ⟨rfl, ?_, ?_⟩
    · simp [pearsonInput, List.map_take]
    · simp [pearsonInput]
  · intro h
    have hp : (pearsonInput [(1, 10)] [(2, 3), (1, 4)]).2 = [(3 : ℝ)] := rfl
    have hd : (dateAlignedInput [(1, 10)] [(2, 3), (1, 4)]).2 = [(4 : ℝ)] := rfl
    have h2 := congrArg Prod.snd h
    rw [hp, hd] at h2
    have h3 : (3 : ℝ) = 4 := by injection h2
    norm_num at h3

/-- Witness for C9: the paired length at a concrete input is the min of
the two lengths. -/
theorem C9_positional_truncation_witness :
    (pearsonInput [(1, 10)] [(2, 3), (1, 4)]).2.length =
      min ([(1, (10 : ℝ))] : List (Nat × ℝ)).length
        ([(2, (3 : ℝ)), (1, 4)] : List (Nat × ℝ)).length :=
  (C9_positional_truncation.1 [(1, 10)] [(2, 3), (1, 4)]).2.2

/-- Claim C10: the three beach-type index conditions are pairwise disjoint
and their union holds exactly for the non-NaN iribarren values (±inf rows
are still classified); a NaN iribarren — produced e.g. from hs < 0 with a
nonzero period, with no error raised — satisfies none of the three
conditions and so drops out of every class. -/
theorem C10_classification_partition :
    (∀ v : FP,
      ¬ (ids1Mem v ∧ ids2Mem v) ∧
      ¬ (ids1Mem v ∧ ids3Mem v) ∧
      ¬ (ids2Mem v ∧ ids3Mem v) ∧
      ((ids1Mem v ∨ ids2Mem v ∨ ids3Mem v) ↔ v ≠ FP.nan)) ∧
    (∀ Tp Hs beta : ℝ, Tp ≠ 0 → Hs < 0 → iribarrenNb Tp Hs beta = FP.nan) := by
  constructor
  · intro v
    cases v with
    | nan => simp [ids1Mem, ids2Mem, ids3Mem, FP.flt, FP.fle]
    | pinf => simp [ids1Mem, ids2Mem, ids3Mem, FP.flt, FP.fle]
    | ninf => simp [ids1Mem, ids2Mem, ids3Mem, FP.flt, FP.fle]
    | fin x =>
        have hne : FP.fin x ≠ FP.nan := fun hc => FP.noConfusion hc
        simp only [ids1Mem, ids2Mem, ids3Mem, FP.flt, FP.fle, ne_eq, hne,
          not_false_eq_true, iff_true]
        refine ⟨?_, ?_, ?_, ?_⟩
        · rintro ⟨h1, h2, -⟩
          linarith
        · rintro ⟨h1, h2⟩
          linarith
        · rintro ⟨⟨-, h1⟩, h2⟩
          linarith
        · rcases lt_trichotomy x 0.5 with h | h | h
          · exact Or.inl h
          · refine Or.inr (Or.inl ⟨le_of_eq h.symm, ?_⟩)
            rw [h]
            norm_num
          · by_cases h15 : x < 1.5
            · exact Or.inr (Or.inl ⟨h.le, h15⟩)
            · exact Or.inr (Or.inr (not_lt.mp h15))
  · exact fun Tp Hs beta hT hH => iribarrenNb_neg_Hs Tp Hs beta hT hH

/-- Witness for C10: a concrete hs < 0 row with a nonzero period yields a
NaN iribarren. -/
theorem C10_classification_partition_witness :
    iribarrenNb 8 (-2) 0.05 = FP.nan :=
  C10_classification_partition.2 8 (-2) 0.05 (by norm_num) (by norm_num)
